import Mathlib

/-!
# okta_group resource and UserSchemaAttribute codec

A shallow embedding of `okta/resource_okta_group.go` (importer, read, membership
sync and membership update) and of the hand-written JSON codec in
`sdk/v2_userSchemaAttribute.go`.

Remote effects are modelled by explicit state passing: a `World σ` carries the
state `σ` of the remote system together with the list of calls issued so far.
-/

set_option maxRecDepth 100000

namespace Okta

/-- Go `error` values are represented by their message; `none : Option Error` is `nil`. -/
abbrev Error := String

/-! ## Hash codes of set elements (`hashcode.String`, `HashSchema`) -/

/-- One bit of the reflected CRC-32 (IEEE polynomial `0xEDB88320`). -/
def crc32Shift (crc : Nat) : Nat :=
  if crc % 2 = 1 then (crc / 2) ^^^ 0xEDB88320 else crc / 2

/-- Feeding one byte to the CRC-32 register. -/
def crc32Update (crc : Nat) (b : Nat) : Nat :=
  crc32Shift (crc32Shift (crc32Shift (crc32Shift (crc32Shift (crc32Shift (crc32Shift
    (crc32Shift (crc ^^^ b))))))))

/-- Go's `crc32.ChecksumIEEE` on a byte slice. -/
def crc32.ChecksumIEEE (data : List Nat) : Nat :=
  (data.foldl crc32Update 0xFFFFFFFF) ^^^ 0xFFFFFFFF

/-- The UTF-8 bytes of one code point. -/
def utf8EncodeRune (n : Nat) : List Nat :=
  if n < 0x80 then [n]
  else if n < 0x800 then [0xC0 + n / 64, 0x80 + n % 64]
  else if n < 0x10000 then [0xE0 + n / 4096, 0x80 + n / 64 % 64, 0x80 + n % 64]
  else [0xF0 + n / 262144, 0x80 + n / 4096 % 64, 0x80 + n / 64 % 64, 0x80 + n % 64]

/-- The conversion `[]byte(s)`. -/
def bytesOf (s : String) : List Nat :=
  s.data.flatMap (fun c => utf8EncodeRune c.toNat)

/-- The library function `hashcode.String`: the CRC-32 of the bytes of `s`, which is
never negative as a 64-bit `int`. -/
def hashcode.String (s : String) : Nat :=
  crc32.ChecksumIEEE (bytesOf s)

/-- The hash code under which a `users` set stores `item`: the schema declares no `Set`
function, so the library uses `HashSchema` of the element schema, which for `TypeString`
hashes the string followed by `;`. -/
def hashKey (item : String) : Nat :=
  hashcode.String (item ++ ";")

/-- Decimal digits, most significant first, with room for twenty digits (any 64-bit
`int` has at most nineteen). -/
def itoaDigits : Nat → Nat → List Nat → List Nat
  | 0, _, acc => acc
  | fuel + 1, n, acc =>
    if n < 10 then n :: acc else itoaDigits fuel (n / 10) (n % 10 :: acc)

/-- Go's `strconv.Itoa` on a non-negative number, as the list of its decimal digits. -/
def strconv.Itoa (n : Nat) : List Nat :=
  itoaDigits 20 n []

/-- Go's `<` on strings, here on digit strings: bytewise, a proper prefix comes first. -/
def lexLt : List Nat → List Nat → Bool
  | [], [] => false
  | [], _ :: _ => true
  | _ :: _, [] => false
  | a :: as, b :: bs => if a < b then true else if b < a then false else lexLt as bs

/-- The order in which `Set.List()` lists two elements: by their map keys
`strconv.Itoa(code)`, compared as strings. -/
def keyLe (a b : String) : Prop :=
  lexLt (strconv.Itoa (hashKey b)) (strconv.Itoa (hashKey a)) = false

instance keyLe.decidable : DecidableRel keyLe :=
  fun _ _ => inferInstanceAs (Decidable (lexLt _ _ = false))

/-! ## `schema.Set` of strings (terraform-plugin-sdk) -/

/-- The `*schema.Set` held by the `users` attribute (`Elem` is `TypeString`). The library
keeps a map `m` from the key `strconv.Itoa(hashKey item)` to `item`; `items` are the values
of that map (in no particular order) and `distinct` says that no two of them share a
key. -/
structure SchemaSet where
  items : List String
  distinct : (items.map hashKey).Nodup

/-- Membership test, `s.Contains(x)`: a lookup of the key of `x` in the map. -/
def SchemaSet.Contains (s : SchemaSet) (x : String) : Bool :=
  decide (hashKey x ∈ s.items.map hashKey)

/-- The method `s.List()`: the values of the map, sorted by key. -/
def SchemaSet.list (s : SchemaSet) : List String :=
  s.items.insertionSort keyLe

/-- The method `s.Difference(other)`: the entries of `s` whose key is not a key of
`other`. -/
def SchemaSet.Difference (s other : SchemaSet) : SchemaSet :=
  ⟨s.items.filter (fun x => !other.Contains x),
    List.Nodup.sublist ((List.filter_sublist _).map hashKey) s.distinct⟩

/-- The method `s.Equal(other)`, which is `reflect.DeepEqual` on the two maps: they have
the same number of entries and every entry of `s` is an entry of `other`. -/
def SchemaSet.Equal (s other : SchemaSet) : Bool :=
  decide (s.items.length = other.items.length) &&
    s.items.all (fun x => decide (x ∈ other.items))

/-- The empty set. -/
def SchemaSet.empty : SchemaSet :=
  ⟨[], List.nodup_nil⟩

/-- The method `s.Add(item)`: the item is stored unless its key is already taken. -/
def SchemaSet.Add (s : SchemaSet) (item : String) : SchemaSet :=
  if h : hashKey item ∈ s.items.map hashKey then s
  else ⟨item :: s.items, List.nodup_cons.2 ⟨h, s.distinct⟩⟩

/-- The constructor `schema.NewSet(f, items)`: the items are added one by one. -/
def SchemaSet.NewSet (l : List String) : SchemaSet :=
  l.foldl SchemaSet.Add SchemaSet.empty

/-- Modelled from the spec: `convertInterfaceArrToStringArr` is not part of the shown
sources; it casts the `[]interface{}` returned by `Set.List()` to `[]string`, element by
element, so that `toAdd = desired − observed` and `toRemove = observed − desired`. -/
def convertInterfaceArrToStringArr (rawList : List String) : List String :=
  rawList

/-- Modelled from the spec: `convertStringSliceToSet` is not part of the shown sources; it
builds the `schema.Set` holding the elements of a string slice. -/
def convertStringSliceToSet (l : List String) : SchemaSet :=
  SchemaSet.NewSet l

/-! ## `schema.ResourceData` for the `okta_group` schema -/

/-- The resource data of one `okta_group`: its ID and the four schema attributes
(`name`, `description`, `users`, `skip_users`), plus the prior value of `users` that
`GetChange("users")` reports as the old side. -/
structure ResourceData where
  id : String
  name : String
  description : String
  usersOld : SchemaSet
  users : SchemaSet
  skip_users : Bool

/-- A value handed to `d.Set`. -/
inductive Value where
  | str (s : String)
  | bool (b : Bool)
  | set (s : SchemaSet)

/-- The method `d.Id()`. -/
def ResourceData.Id (d : ResourceData) : String :=
  d.id

/-- The method `d.SetId(v)`. -/
def ResourceData.SetId (d : ResourceData) (v : String) : ResourceData :=
  { d with id := v }

/-- The method `d.Set(key, value)` against the schema of `resourceGroup`: writes the
attribute when the key exists and the value has the attribute type, and reports an
error (leaving the data untouched) otherwise. -/
def ResourceData.Set (d : ResourceData) (key : String) (value : Value) :
    Except Error ResourceData :=
  if key = "name" then
    match value with
    | .str s => .ok { d with name := s }
    | _ => .error "name: wrong type"
  else if key = "description" then
    match value with
    | .str s => .ok { d with description := s }
    | _ => .error "description: wrong type"
  else if key = "users" then
    match value with
    | .set s => .ok { d with users := s }
    | _ => .error "users: wrong type"
  else if key = "skip_users" then
    match value with
    | .bool b => .ok { d with skip_users := b }
    | _ => .error "skip_users: wrong type"
  else
    .error ("Invalid address to set: " ++ key)

/-- The statement `_ = d.Set(key, value)`: the error of `Set` is discarded. -/
def ResourceData.SetIgnore (d : ResourceData) (key : String) (value : Value) :
    ResourceData :=
  match d.Set key value with
  | .ok d1 => d1
  | .error _ => d

/-- The call `d.GetChange("users")`: the old and the new value of `users`. -/
def ResourceData.GetChangeUsers (d : ResourceData) : SchemaSet × SchemaSet :=
  (d.usersOld, d.users)

/-- The call `d.HasChange("users")`: the old and the new set are not `Equal`. -/
def ResourceData.HasChangeUsers (d : ResourceData) : Bool :=
  !(d.usersOld.Equal d.users)

/-! ## Remote collaborators and the call log -/

/-- An `okta.Group` as far as the resource reads it: its ID and its profile. -/
structure Group where
  Id : String
  Name : String
  Description : String

/-- An `okta.Response` as far as the resource reads it. -/
structure Response where
  StatusCode : Nat

/-- One invocation of a collaborator that talks to the remote system. -/
inductive Call where
  | GetGroup (id : String)
  | listGroupUserIDs (id : String)
  | addUserToGroups (groupId : String) (users : List String)
  | removeUserFromGroups (groupId : String) (users : List String)
  deriving DecidableEq

/-- The remote system in state `remote`, and the calls issued so far, oldest first. -/
structure World (σ : Type) where
  remote : σ
  calls : List Call

/-- The collaborators of `resource_okta_group.go` whose code is not part of the shown
sources, as arbitrary state-passing functions over the remote state `σ`:
the SDK call `Group.GetGroup`, and the helpers `suppressErrorOn404`,
`listGroupUserIDs`, `addUserToGroups` and `removeUserFromGroups`. -/
structure Deps (σ : Type) where
  GetGroup : σ → String → σ × Option Group × Option Response × Option Error
  suppressErrorOn404 : Option Response → Option Error → Option Error
  listGroupUserIDs : σ → String → σ × Except Error (List String)
  addUserToGroups : σ → String → List String → σ × Option Error
  removeUserFromGroups : σ → String → List String → σ × Option Error

/-- `diag.Diagnostics`: the list of reported problems, `[]` for `nil`. -/
abbrev Diagnostics := List String

/-! ## Membership sync and update -/

/-- The function `syncGroupUsers`. -/
def syncGroupUsers {σ : Type} (deps : Deps σ) (w : World σ) (d : ResourceData) :
    World σ × ResourceData × Option Error :=
  if d.skip_users then
    (w, d, none)
  else
    let res := deps.listGroupUserIDs w.remote d.Id
    let w1 : World σ := ⟨res.1, w.calls ++ [Call.listGroupUserIDs d.Id]⟩
    match res.2 with
    | .error err => (w1, d, some err)
    | .ok userIDList =>
      match d.Set "users" (.set (convertStringSliceToSet userIDList)) with
      | .ok d1 => (w1, d1, none)
      | .error err => (w1, d, some err)

/-- The slice `usersToAdd` of `updateGroupUsers`. -/
def usersToAdd (oldSet newSet : SchemaSet) : List String :=
  convertInterfaceArrToStringArr (newSet.Difference oldSet).list

/-- The slice `usersToRemove` of `updateGroupUsers`. -/
def usersToRemove (oldSet newSet : SchemaSet) : List String :=
  convertInterfaceArrToStringArr (oldSet.Difference newSet).list

/-- The function `updateGroupUsers`. -/
def updateGroupUsers {σ : Type} (deps : Deps σ) (w : World σ) (d : ResourceData) :
    World σ × Option Error :=
  if !d.HasChangeUsers then
    (w, none)
  else if d.skip_users then
    (w, none)
  else
    let oldSet := d.GetChangeUsers.1
    let newSet := d.GetChangeUsers.2
    let toAdd := usersToAdd oldSet newSet
    let toRemove := usersToRemove oldSet newSet
    let r1 := deps.addUserToGroups w.remote d.Id toAdd
    let w1 : World σ := ⟨r1.1, w.calls ++ [Call.addUserToGroups d.Id toAdd]⟩
    match r1.2 with
    | some err => (w1, some err)
    | none =>
      let r2 := deps.removeUserFromGroups w1.remote d.Id toRemove
      (⟨r2.1, w1.calls ++ [Call.removeUserFromGroups d.Id toRemove]⟩, r2.2)

/-! ## Read -/

/-- The function `resourceGroupRead` (the logger call issues no remote request and is
left out). The diagnostics are the last component, `[]` for `nil`. -/
def resourceGroupRead {σ : Type} (deps : Deps σ) (w : World σ) (d : ResourceData) :
    World σ × ResourceData × Diagnostics :=
  let res := deps.GetGroup w.remote d.Id
  let w1 : World σ := ⟨res.1, w.calls ++ [Call.GetGroup d.Id]⟩
  let g := res.2.1
  let resp := res.2.2.1
  let err := res.2.2.2
  match deps.suppressErrorOn404 resp err with
  | some e => (w1, d, ["failed to get group: " ++ e])
  | none =>
    match g with
    | none => (w1, d.SetId "", [])
    | some g =>
      let d1 := d.SetIgnore "name" (.str g.Name)
      let d2 := d1.SetIgnore "description" (.str g.Description)
      let r := syncGroupUsers deps w1 d2
      match r.2.2 with
      | some e => (r.1, r.2.1, ["failed to get group users: " ++ e])
      | none => (r.1, r.2.1, [])

/-! ## Import -/

/-- Splitting a list of characters at every occurrence of `sep`; the result always has
one more segment than there are separators. -/
def splitChars (sep : Char) : List Char → List (List Char)
  | [] => [[]]
  | c :: cs =>
    if c = sep then [] :: splitChars sep cs
    else
      match splitChars sep cs with
      | [] => [[c]]
      | seg :: rest => (c :: seg) :: rest

/-- Go's `strings.Split(s, sep)` for a one-character separator. -/
def strings.Split (s : String) (sep : Char) : List String :=
  (splitChars sep s.data).map String.mk

/-- Modelled from the spec: `isValidSkipArg` is not part of the shown sources; the only
suffix keyword the group importer recognises is `skip_users` ("an unrecognized suffix
keyword is rejected", "it can only be 'skip_users'"). -/
def isValidSkipArg (s : String) : Bool :=
  decide (s = "skip_users")

/-- The `StateContext` function of the importer of `resourceGroup`. It receives the
provider metadata (through which the remote system is reached) as `w` and hands it back;
the second component is the resource data `d` as the function leaves it, the third is
the returned slice or error. -/
def StateContext {σ : Type} (w : World σ) (d : ResourceData) :
    World σ × ResourceData × Except Error (List ResourceData) :=
  let importID := strings.Split d.Id '/'
  if importID.length = 1 then
    (w, d, .ok [d])
  else if importID.length > 2 then
    (w, d, .error
      "invalid format used for import ID, format must be 'group_id' or 'group_id/skip_users'")
  else
    let d1 := d.SetId (importID.getD 0 "")
    if !isValidSkipArg (importID.getD 1 "") then
      (w, d1, .error ("'" ++ importID.getD 1 "" ++
        "' is invalid value to be used as part of import ID, it can only be 'skip_users'"))
    else
      let d2 := d1.SetIgnore (importID.getD 1 "") (.bool true)
      (w, d2, .ok [d2])

/-! ## Member-level helpers -/

/-- What the remote system answers to a single add-member or remove-member request
when it does not accept it. -/
inductive MemberError where
  | alreadyMember
  | notMember
  | other (msg : Error)
  deriving DecidableEq

/-- A single membership request sent to the remote system. -/
inductive MemberCall where
  | AddMember (groupId userId : String)
  | RemoveMember (groupId userId : String)
  deriving DecidableEq

/-- The remote membership endpoints `AddMember(collectionID, memberID)` and
`RemoveMember(collectionID, memberID)` over a remote state `ρ`. -/
structure MemberAPI (ρ : Type) where
  AddMember : ρ → String → String → ρ × Option MemberError
  RemoveMember : ρ → String → String → ρ × Option MemberError

/-- The remote state together with the membership requests sent so far, oldest first. -/
structure MemberWorld (ρ : Type) where
  remote : ρ
  log : List MemberCall

/-- Modelled from the spec: `addUserToGroups` is not part of the shown sources. It issues
one add-member request per ID, in order; an "already a member" answer counts as success;
at the first other failure it stops and returns an error naming the member. -/
def addUserToGroups {ρ : Type} (api : MemberAPI ρ) (groupId : String) :
    List String → MemberWorld ρ → MemberWorld ρ × Option Error
  | [], w => (w, none)
  | user :: rest, w =>
    let r := api.AddMember w.remote groupId user
    let w1 : MemberWorld ρ := ⟨r.1, w.log ++ [MemberCall.AddMember groupId user]⟩
    match r.2 with
    | none => addUserToGroups api groupId rest w1
    | some .alreadyMember => addUserToGroups api groupId rest w1
    | some .notMember =>
      (w1, some ("failed to add user " ++ user ++ " to group " ++ groupId ++ ": not a member"))
    | some (.other msg) =>
      (w1, some ("failed to add user " ++ user ++ " to group " ++ groupId ++ ": " ++ msg))

/-- Modelled from the spec: `removeUserFromGroups` is not part of the shown sources. It
issues one remove-member request per ID, in order; a "not a member" answer counts as
success; at the first other failure it stops and returns an error naming the member. -/
def removeUserFromGroups {ρ : Type} (api : MemberAPI ρ) (groupId : String) :
    List String → MemberWorld ρ → MemberWorld ρ × Option Error
  | [], w => (w, none)
  | user :: rest, w =>
    let r := api.RemoveMember w.remote groupId user
    let w1 : MemberWorld ρ := ⟨r.1, w.log ++ [MemberCall.RemoveMember groupId user]⟩
    match r.2 with
    | none => removeUserFromGroups api groupId rest w1
    | some .notMember => removeUserFromGroups api groupId rest w1
    | some .alreadyMember =>
      (w1, some ("failed to remove user " ++ user ++ " from group " ++ groupId ++
        ": already a member"))
    | some (.other msg) =>
      (w1, some ("failed to remove user " ++ user ++ " from group " ++ groupId ++ ": " ++ msg))

/-- The collaborators `deps` with the two membership helpers replaced by the member-level
helpers over `api`. -/
def Deps.withMemberAPI {ρ : Type} (deps : Deps (MemberWorld ρ)) (api : MemberAPI ρ) :
    Deps (MemberWorld ρ) :=
  { deps with
    addUserToGroups := fun w groupId users => Okta.addUserToGroups api groupId users w
    removeUserFromGroups := fun w groupId users => Okta.removeUserFromGroups api groupId users w }

/-! ## Sample collaborators and data -/

/-- A remote system without state in which the group is gone: `GetGroup` answers 404,
which `suppressErrorOn404` swallows; the membership helpers always succeed. -/
def sampleDeps (σ : Type) : Deps σ where
  GetGroup := fun r _ => (r, none, some ⟨404⟩, some "404 Not Found")
  suppressErrorOn404 := fun resp err =>
    match resp with
    | some r => if r.StatusCode = 404 then none else err
    | none => err
  listGroupUserIDs := fun r _ => (r, .ok [])
  addUserToGroups := fun r _ _ => (r, none)
  removeUserFromGroups := fun r _ _ => (r, none)

/-- Membership endpoints that refuse to add `u2` and accept everything else. -/
def refuseU2 : MemberAPI Unit where
  AddMember := fun r _ u =>
    if u = "u2" then (r, some (MemberError.other "rejected")) else (r, none)
  RemoveMember := fun r _ _ => (r, none)

/-- Membership endpoints that answer every add with "already a member" and every remove
with "not a member". -/
def alwaysDuplicate : MemberAPI Unit where
  AddMember := fun r _ _ => (r, some MemberError.alreadyMember)
  RemoveMember := fun r _ _ => (r, some MemberError.notMember)

/-- A remote world in which nothing has been called yet. -/
def freshWorld : World Unit :=
  ⟨(), []⟩

/-- A member-level remote world in which nothing has been called yet. -/
def freshMemberWorld : World (MemberWorld Unit) :=
  ⟨⟨(), []⟩, []⟩

/-- Group `g1` whose members were `u3` and are to become `u1`, `u2`. -/
def sampleChange : ResourceData :=
  ⟨"g1", "devs", "", ⟨["u3"], by decide⟩, ⟨["u1", "u2"], by decide⟩, false⟩

/-- Group `g1` whose only member was `buckeroo` and is to become `plumless`; the two IDs
have the same hash code. -/
def collidingChange : ResourceData :=
  ⟨"g1", "devs", "", ⟨["buckeroo"], by decide⟩, ⟨["plumless"], by decide⟩, false⟩

/-- The same change with `skip_users` set. -/
def sampleSkipped : ResourceData :=
  { sampleChange with skip_users := true }

/-- Resource data as the importer receives it: only the ID is filled in. -/
def importData (importId : String) : ResourceData :=
  ⟨importId, "", "", SchemaSet.empty, SchemaSet.empty, false⟩

end Okta

/-! ## `UserSchemaAttribute` and its JSON codec -/

namespace Sdk

/-- Go `error` values are represented by their message. -/
abbrev Error := String

/-- The four integer fields of `UserSchemaAttribute` that the hand-written codec reads
and writes: `MaxLength`/`MinLength` (tag `json:"-"`) and `MaxLengthPtr`/`MinLengthPtr`
(keys `maxLength`/`minLength`, `omitempty`); a `nil` pointer is `none`. The remaining
fields go through `encoding/json` untouched by the two methods and are not modelled. -/
structure UserSchemaAttribute where
  MaxLength : Int
  MaxLengthPtr : Option Int
  MinLength : Int
  MinLengthPtr : Option Int
  deriving DecidableEq

/-- The zero value of `UserSchemaAttribute`. -/
def UserSchemaAttribute.zero : UserSchemaAttribute :=
  ⟨0, none, 0, none⟩

/-- The value found under a key of a JSON object: `null`, an integer literal, or anything
else (string, boolean, array, object, number with a fraction or an exponent). -/
inductive JsonValue where
  | null
  | int (n : Int)
  | other
  deriving DecidableEq

/-- A JSON object as far as the keys `maxLength` and `minLength` go; `none` is an absent
key. -/
structure JsonObject where
  maxLength : Option JsonValue
  minLength : Option JsonValue
  deriving DecidableEq

/-- Modelled from the spec: `Int64Ptr` is not part of the shown sources; it returns a
pointer to a fresh copy of `v` (the "pointer-based optional-integer trick"). -/
def Int64Ptr (v : Int) : Option Int :=
  some v

/-- How `encoding/json` emits a `*int64` field tagged `omitempty`: nothing for a `nil`
pointer, the pointed-to number otherwise (zero included). -/
def encodeInt64Ptr (p : Option Int) : Option JsonValue :=
  p.map JsonValue.int

/-- How `encoding/json` decodes a key into a `*int64` field holding `cur`: an absent key
leaves the field alone, `null` sets it to `nil`, an integer that fits `int64` is stored
behind a pointer, anything else is an error. -/
def decodeInt64Ptr (key : String) (v : Option JsonValue) (cur : Option Int) :
    Except Error (Option Int) :=
  match v with
  | none => .ok cur
  | some .null => .ok none
  | some (.int n) =>
    if -(2 ^ 63 : Int) ≤ n ∧ n < 2 ^ 63 then .ok (some n)
    else .error ("json: cannot unmarshal number into Go struct field " ++ key ++ " of type int64")
  | some .other => .error ("json: cannot unmarshal value into Go struct field " ++ key ++ " of type int64")

/-- The call `json.Marshal(&result)` on the alias struct: `MaxLength` and `MinLength` are
skipped (tag `-`), the two pointers are emitted under `maxLength` and `minLength`. -/
def jsonMarshal (a : UserSchemaAttribute) : Except Error JsonObject :=
  .ok ⟨encodeInt64Ptr a.MaxLengthPtr, encodeInt64Ptr a.MinLengthPtr⟩

/-- The call `json.Unmarshal(data, &result)` on the alias struct wrapping `a`: only the
two pointers are written. -/
def jsonUnmarshal (data : JsonObject) (a : UserSchemaAttribute) :
    Except Error UserSchemaAttribute :=
  match decodeInt64Ptr "maxLength" data.maxLength a.MaxLengthPtr with
  | .error e => .error e
  | .ok p =>
    match decodeInt64Ptr "minLength" data.minLength a.MinLengthPtr with
    | .error e => .error e
    | .ok q => .ok { a with MaxLengthPtr := p, MinLengthPtr := q }

/-- The method `MarshalJSON`. `result` wraps a pointer to the receiver, so the two
assignments write to the receiver itself: the first component is the receiver after the
call, the second the returned document. -/
def UserSchemaAttribute.MarshalJSON (a : UserSchemaAttribute) :
    UserSchemaAttribute × Except Error JsonObject :=
  let a1 := if a.MaxLength ≠ 0 then { a with MaxLengthPtr := Int64Ptr a.MaxLength } else a
  let a2 := if a1.MinLength ≠ 0 then { a1 with MinLengthPtr := Int64Ptr a1.MinLength } else a1
  (a2, jsonMarshal a2)

/-- The method `UnmarshalJSON`, decoding `data` into the receiver `a`; the result is the
receiver after the call. -/
def UserSchemaAttribute.UnmarshalJSON (a : UserSchemaAttribute) (data : JsonObject) :
    Except Error UserSchemaAttribute :=
  match jsonUnmarshal data a with
  | .error err => .error err
  | .ok r =>
    let a1 :=
      match r.MaxLengthPtr with
      | some v => { r with MaxLength := v, MaxLengthPtr := r.MaxLengthPtr }
      | none => r
    let a2 :=
      match a1.MinLengthPtr with
      | some v => { a1 with MinLength := v, MinLengthPtr := a1.MinLengthPtr }
      | none => a1
    .ok a2

end Sdk

/-! ## Theorems: membership diff and update -/

namespace Okta

theorem SchemaSet.mem_list (s : SchemaSet) (x : String) : x ∈ s.list ↔ x ∈ s.items :=
  (List.perm_insertionSort keyLe s.items).mem_iff

theorem SchemaSet.nodup_list (s : SchemaSet) : s.list.Nodup :=
  (List.perm_insertionSort keyLe s.items).nodup_iff.2 (List.Nodup.of_map hashKey s.distinct)

/-- The slice `usersToAdd` holds the new elements whose key is not a key of the old set. -/
theorem mem_usersToAdd_key (oldSet newSet : SchemaSet) (x : String) :
    x ∈ usersToAdd oldSet newSet ↔
      x ∈ newSet.items ∧ hashKey x ∉ oldSet.items.map hashKey := by
  simp [usersToAdd, convertInterfaceArrToStringArr, SchemaSet.mem_list,
    SchemaSet.Difference, SchemaSet.Contains, List.mem_filter]

/-- The slice `usersToRemove` holds the old elements whose key is not a key of the new
set. -/
theorem mem_usersToRemove_key (oldSet newSet : SchemaSet) (x : String) :
    x ∈ usersToRemove oldSet newSet ↔
      x ∈ oldSet.items ∧ hashKey x ∉ newSet.items.map hashKey := by
  simp [usersToRemove, convertInterfaceArrToStringArr, SchemaSet.mem_list,
    SchemaSet.Difference, SchemaSet.Contains, List.mem_filter]

/-- Between two sets without a shared hash code for different elements, a key of one is
a key of the other exactly when the element itself is in the other. -/
theorem key_mem_iff_of_no_collision (s other : SchemaSet) (x : String) (hx : x ∈ s.items)
    (hcol : ∀ a ∈ s.items, ∀ b ∈ other.items, hashKey a = hashKey b → a = b) :
    hashKey x ∈ other.items.map hashKey ↔ x ∈ other.items := by
  constructor
  · intro h
    obtain ⟨y, hy, hxy⟩ := List.mem_map.1 h
    have := hcol x hx y hy hxy.symm
    rw [this]
    exact hy
  · intro h
    exact List.mem_map_of_mem hashKey h

theorem mem_usersToAdd (oldSet newSet : SchemaSet) (x : String)
    (hcol : ∀ a ∈ newSet.items, ∀ b ∈ oldSet.items, hashKey a = hashKey b → a = b) :
    x ∈ usersToAdd oldSet newSet ↔ x ∈ newSet.items ∧ x ∉ oldSet.items := by
  rw [mem_usersToAdd_key]
  constructor
  · rintro ⟨hx, hk⟩
    exact ⟨hx, fun h => hk ((key_mem_iff_of_no_collision newSet oldSet x hx hcol).2 h)⟩
  · rintro ⟨hx, hk⟩
    exact ⟨hx, fun h => hk ((key_mem_iff_of_no_collision newSet oldSet x hx hcol).1 h)⟩

theorem mem_usersToRemove (oldSet newSet : SchemaSet) (x : String)
    (hcol : ∀ a ∈ newSet.items, ∀ b ∈ oldSet.items, hashKey a = hashKey b → a = b) :
    x ∈ usersToRemove oldSet newSet ↔ x ∈ oldSet.items ∧ x ∉ newSet.items := by
  have hcol2 : ∀ a ∈ oldSet.items, ∀ b ∈ newSet.items, hashKey a = hashKey b → a = b :=
    fun a ha b hb h => (hcol b hb a ha h.symm).symm
  rw [mem_usersToRemove_key]
  constructor
  · rintro ⟨hx, hk⟩
    exact ⟨hx, fun h => hk ((key_mem_iff_of_no_collision oldSet newSet x hx hcol2).2 h)⟩
  · rintro ⟨hx, hk⟩
    exact ⟨hx, fun h => hk ((key_mem_iff_of_no_collision oldSet newSet x hx hcol2).1 h)⟩

theorem nodup_usersToAdd (oldSet newSet : SchemaSet) : (usersToAdd oldSet newSet).Nodup :=
  (newSet.Difference oldSet).nodup_list

theorem nodup_usersToRemove (oldSet newSet : SchemaSet) :
    (usersToRemove oldSet newSet).Nodup :=
  (oldSet.Difference newSet).nodup_list

/-- What `updateGroupUsers` does once it is past its two guards. -/
theorem updateGroupUsers_of_changed {σ : Type} (deps : Deps σ) (w : World σ)
    (d : ResourceData) (hchg : d.HasChangeUsers = true) (hskip : d.skip_users = false) :
    updateGroupUsers deps w d =
      match (deps.addUserToGroups w.remote d.id (usersToAdd d.usersOld d.users)).2 with
      | some err =>
        (⟨(deps.addUserToGroups w.remote d.id (usersToAdd d.usersOld d.users)).1,
          w.calls ++ [Call.addUserToGroups d.id (usersToAdd d.usersOld d.users)]⟩, some err)
      | none =>
        (⟨(deps.removeUserFromGroups
              (deps.addUserToGroups w.remote d.id (usersToAdd d.usersOld d.users)).1
              d.id (usersToRemove d.usersOld d.users)).1,
          w.calls ++ [Call.addUserToGroups d.id (usersToAdd d.usersOld d.users)] ++
            [Call.removeUserFromGroups d.id (usersToRemove d.usersOld d.users)]⟩,
          (deps.removeUserFromGroups
              (deps.addUserToGroups w.remote d.id (usersToAdd d.usersOld d.users)).1
              d.id (usersToRemove d.usersOld d.users)).2) := by
  simp only [updateGroupUsers, hchg, hskip, ResourceData.GetChangeUsers, ResourceData.Id]
  simp

/-- C1 (amended): when `updateGroupUsers` reaches the diff step (`users` changed,
`skip_users` false) and no element of the new set shares its hash code with a different
element of the old set, the slice handed to `addUserToGroups` holds exactly the elements
of new − old, the slice handed to `removeUserFromGroups` (invoked when the add phase
succeeded) holds exactly the elements of old − new, and neither slice has a duplicate. -/
theorem updateGroupUsers_passes_differences {σ : Type} (deps : Deps σ) (w : World σ)
    (d : ResourceData) (hchg : d.HasChangeUsers = true) (hskip : d.skip_users = false)
    (hcol : ∀ a ∈ d.users.items, ∀ b ∈ d.usersOld.items, hashKey a = hashKey b → a = b) :
    ∃ toAdd toRemove : List String,
      (∀ x, x ∈ toAdd ↔ x ∈ d.users.items ∧ x ∉ d.usersOld.items) ∧ toAdd.Nodup ∧
      (∀ x, x ∈ toRemove ↔ x ∈ d.usersOld.items ∧ x ∉ d.users.items) ∧ toRemove.Nodup ∧
      (updateGroupUsers deps w d).1.calls =
        w.calls ++ Call.addUserToGroups d.id toAdd ::
          (if (deps.addUserToGroups w.remote d.id toAdd).2 = none
            then [Call.removeUserFromGroups d.id toRemove] else []) := by
  refine ⟨usersToAdd d.usersOld d.users, usersToRemove d.usersOld d.users,
    fun x => mem_usersToAdd _ _ x hcol, nodup_usersToAdd _ _,
    fun x => mem_usersToRemove _ _ x hcol, nodup_usersToRemove _ _, ?_⟩
  rw [updateGroupUsers_of_changed deps w d hchg hskip]
  cases h : (deps.addUserToGroups w.remote d.id (usersToAdd d.usersOld d.users)).2 <;> simp

/-- C1 fails as stated: with old `users` = {`buckeroo`} and new `users` = {`plumless`},
two IDs with the same hash code, the set has changed and `skip_users` is false, yet
`updateGroupUsers` hands the empty slice to `addUserToGroups` and to
`removeUserFromGroups`; so the slice handed to `addUserToGroups` is not new − old, which
holds `plumless`. -/
theorem updateGroupUsers_collision_passes_nothing :
    collidingChange.HasChangeUsers = true ∧ collidingChange.skip_users = false ∧
    (updateGroupUsers (sampleDeps Unit) freshWorld collidingChange).1.calls =
      [Call.addUserToGroups "g1" [], Call.removeUserFromGroups "g1" []] ∧
    ¬ ∃ toAdd toRemove : List String,
      (∀ x, x ∈ toAdd ↔
        x ∈ collidingChange.users.items ∧ x ∉ collidingChange.usersOld.items) ∧
      toAdd.Nodup ∧
      (∀ x, x ∈ toRemove ↔
        x ∈ collidingChange.usersOld.items ∧ x ∉ collidingChange.users.items) ∧
      toRemove.Nodup ∧
      (updateGroupUsers (sampleDeps Unit) freshWorld collidingChange).1.calls =
        freshWorld.calls ++ Call.addUserToGroups collidingChange.id toAdd ::
          (if ((sampleDeps Unit).addUserToGroups freshWorld.remote collidingChange.id
              toAdd).2 = none
            then [Call.removeUserFromGroups collidingChange.id toRemove] else []) := by
  have hc : (updateGroupUsers (sampleDeps Unit) freshWorld collidingChange).1.calls =
      [Call.addUserToGroups "g1" [], Call.removeUserFromGroups "g1" []] := by decide
  refine ⟨by decide, by decide, hc, ?_⟩
  rintro ⟨toAdd, toRemove, hA, -, -, -, hcalls⟩
  rw [hc] at hcalls
  have h0 : toAdd = [] := by
    simp only [freshWorld, List.nil_append, List.cons.injEq, Call.addUserToGroups.injEq]
      at hcalls
    exact hcalls.1.2.symm
  have hp : "plumless" ∈ toAdd := (hA "plumless").2 (by decide)
  rw [h0] at hp
  exact List.not_mem_nil _ hp

/-- C2 (amended): for a desired set `A` and an observed set `B`, the slices computed by
`updateGroupUsers` satisfy `toAdd ∩ B = ∅` and `toRemove ∩ A = ∅`, and, when no element
of `A` shares its hash code with a different element of `B`,
`(B ∪ toAdd) − toRemove = A`. -/
theorem usersToAdd_usersToRemove_converge (A B : SchemaSet) :
    (usersToAdd B A).toFinset ∩ B.items.toFinset = ∅ ∧
    (usersToRemove B A).toFinset ∩ A.items.toFinset = ∅ ∧
    ((∀ a ∈ A.items, ∀ b ∈ B.items, hashKey a = hashKey b → a = b) →
      (B.items.toFinset ∪ (usersToAdd B A).toFinset) \ (usersToRemove B A).toFinset
        = A.items.toFinset) := by
  refine ⟨?_, ?_, ?_⟩
  · ext x
    simp only [Finset.mem_inter, List.mem_toFinset, mem_usersToAdd_key, Finset.not_mem_empty,
      iff_false]
    rintro ⟨⟨_, hk⟩, hB⟩
    exact hk (List.mem_map_of_mem hashKey hB)
  · ext x
    simp only [Finset.mem_inter, List.mem_toFinset, mem_usersToRemove_key,
      Finset.not_mem_empty, iff_false]
    rintro ⟨⟨_, hk⟩, hA⟩
    exact hk (List.mem_map_of_mem hashKey hA)
  · intro hcol
    ext x
    simp only [Finset.mem_sdiff, Finset.mem_union, List.mem_toFinset,
      mem_usersToAdd B A x hcol, mem_usersToRemove B A x hcol]
    tauto

/-- C2 fails as stated: for the desired set `A` = {`plumless`} and the observed set
`B` = {`buckeroo`}, two IDs with the same hash code, both slices are empty and
`(B ∪ toAdd) − toRemove` is `B`, not `A`. -/
theorem usersToAdd_usersToRemove_collision :
    usersToAdd collidingChange.usersOld collidingChange.users = [] ∧
    usersToRemove collidingChange.usersOld collidingChange.users = [] ∧
    (collidingChange.usersOld.items.toFinset ∪
        (usersToAdd collidingChange.usersOld collidingChange.users).toFinset) \
      (usersToRemove collidingChange.usersOld collidingChange.users).toFinset
      ≠ collidingChange.users.items.toFinset := by
  have hadd : usersToAdd collidingChange.usersOld collidingChange.users = [] := by decide
  have hrem : usersToRemove collidingChange.usersOld collidingChange.users = [] := by decide
  refine ⟨hadd, hrem, ?_⟩
  rw [hadd, hrem]
  intro h
  have hmem : "plumless" ∈ collidingChange.users.items.toFinset := by
    simp [collidingChange]
  rw [← h] at hmem
  simp [collidingChange] at hmem

/-- C5: past the guards of `updateGroupUsers`, an error of `addUserToGroups` is returned
as it is and `addUserToGroups` is then the only call issued; when `addUserToGroups`
succeeds, `removeUserFromGroups` is called next, on the remote state the add phase left,
and its result is returned. -/
theorem updateGroupUsers_add_then_remove {σ : Type} (deps : Deps σ) (w : World σ)
    (d : ResourceData) (hchg : d.HasChangeUsers = true) (hskip : d.skip_users = false) :
    (∀ e, (deps.addUserToGroups w.remote d.id (usersToAdd d.usersOld d.users)).2 = some e →
      (updateGroupUsers deps w d).2 = some e ∧
      (updateGroupUsers deps w d).1.calls =
        w.calls ++ [Call.addUserToGroups d.id (usersToAdd d.usersOld d.users)] ∧
      (updateGroupUsers deps w d).1.remote =
        (deps.addUserToGroups w.remote d.id (usersToAdd d.usersOld d.users)).1 ∧
      ∀ g l, Call.removeUserFromGroups g l ∈ (updateGroupUsers deps w d).1.calls →
        Call.removeUserFromGroups g l ∈ w.calls) ∧
    ((deps.addUserToGroups w.remote d.id (usersToAdd d.usersOld d.users)).2 = none →
      (updateGroupUsers deps w d).1.calls =
        w.calls ++ [Call.addUserToGroups d.id (usersToAdd d.usersOld d.users),
          Call.removeUserFromGroups d.id (usersToRemove d.usersOld d.users)] ∧
      (updateGroupUsers deps w d).2 =
        (deps.removeUserFromGroups
          (deps.addUserToGroups w.remote d.id (usersToAdd d.usersOld d.users)).1
          d.id (usersToRemove d.usersOld d.users)).2) := by
  rw [updateGroupUsers_of_changed deps w d hchg hskip]
  constructor
  · intro e he
    simp [he]
  · intro he
    simp [he]

/-- C6: with `skip_users` true, `syncGroupUsers` and `updateGroupUsers` both return `nil`,
leave the remote state and the call log as they were (no call is issued), and
`syncGroupUsers` leaves the resource data, the stored `users` included, unchanged. -/
theorem skip_users_issues_no_call {σ : Type} (deps : Deps σ) (w : World σ)
    (d : ResourceData) (hskip : d.skip_users = true) :
    syncGroupUsers deps w d = (w, d, none) ∧ updateGroupUsers deps w d = (w, none) := by
  constructor
  · simp [syncGroupUsers, hskip]
  · simp [updateGroupUsers, hskip]

end Okta

/-! ## Theorems: import and read -/

namespace Okta

theorem splitChars_of_not_mem (sep : Char) (l : List Char) (h : sep ∉ l) :
    splitChars sep l = [l] := by
  induction l with
  | nil => rfl
  | cons c cs ih =>
    have hc : c ≠ sep := fun e => h (by simp [e])
    have hcs : sep ∉ cs := fun e => h (by simp [e])
    simp [splitChars, hc, ih hcs]

theorem splitChars_append_sep (sep : Char) (a b : List Char) (h : sep ∉ a) :
    splitChars sep (a ++ sep :: b) = a :: splitChars sep b := by
  induction a with
  | nil => simp [splitChars]
  | cons c cs ih =>
    have hc : c ≠ sep := fun e => h (by simp [e])
    have hcs : sep ∉ cs := fun e => h (by simp [e])
    simp [splitChars, hc, ih hcs]

theorem Split_of_no_sep (s : String) (sep : Char) (h : sep ∉ s.data) :
    strings.Split s sep = [s] := by
  simp [strings.Split, splitChars_of_not_mem sep s.data h]

theorem Split_skip_users (gid : String) (h : '/' ∉ gid.data) :
    strings.Split (gid ++ "/skip_users") '/' = [gid, "skip_users"] := by
  have hd : (gid ++ "/skip_users").data = gid.data ++ '/' :: "skip_users".data := by
    rw [String.data_append]
  have hs : splitChars '/' "skip_users".data = ["skip_users".data] := by decide
  simp [strings.Split, hd, splitChars_append_sep '/' _ _ h, hs]

/-- C3: for an ID `gid` without `/`, the importer accepts the bare ID, returning the
resource data unchanged, and accepts `gid/skip_users`, returning the resource data with
ID `gid` and `skip_users` set to true and every other attribute unchanged. -/
theorem importer_accepts_documented_shapes {σ : Type} (w : World σ) (d : ResourceData)
    (gid : String) (h : '/' ∉ gid.data) :
    StateContext w { d with id := gid } =
      (w, { d with id := gid }, .ok [{ d with id := gid }]) ∧
    StateContext w { d with id := gid ++ "/skip_users" } =
      (w, { d with id := gid, skip_users := true },
        .ok [{ d with id := gid, skip_users := true }]) := by
  constructor
  · simp [StateContext, ResourceData.Id, Split_of_no_sep gid '/' h]
  · simp [StateContext, ResourceData.Id, Split_skip_users gid h, isValidSkipArg,
      ResourceData.SetId, ResourceData.SetIgnore, ResourceData.Set]

/-- C4: an import ID that splits on `/` into more than two segments, or into two
segments the second of which is not `skip_users`, makes the importer return an error
and no resource data; the remote state and the call log are handed back untouched. -/
theorem importer_rejects_other_shapes {σ : Type} (w : World σ) (d : ResourceData)
    (h : 2 < (strings.Split d.id '/').length ∨
      ∃ a b, strings.Split d.id '/' = [a, b] ∧ b ≠ "skip_users") :
    ∃ e, (StateContext w d).2.2 = .error e ∧ (StateContext w d).1 = w := by
  rcases h with h | ⟨a, b, hab, hb⟩
  · have h1 : (strings.Split d.id '/').length ≠ 1 := by omega
    simp [StateContext, ResourceData.Id, h, h1]
  · simp [StateContext, ResourceData.Id, hab, isValidSkipArg, hb]

/-- C7: when `GetGroup` yields no group and `suppressErrorOn404` swallows its error,
`resourceGroupRead` returns no diagnostics, sets the ID to the empty string, leaves
`name`, `description`, `users` and `skip_users` as they were, and `GetGroup` is the only
call it issues. -/
theorem resourceGroupRead_not_found {σ : Type} (deps : Deps σ) (w : World σ)
    (d : ResourceData)
    (hsup : deps.suppressErrorOn404 (deps.GetGroup w.remote d.id).2.2.1
      (deps.GetGroup w.remote d.id).2.2.2 = none)
    (hg : (deps.GetGroup w.remote d.id).2.1 = none) :
    resourceGroupRead deps w d =
      (⟨(deps.GetGroup w.remote d.id).1, w.calls ++ [Call.GetGroup d.id]⟩,
        { d with id := "" }, []) := by
  simp [resourceGroupRead, ResourceData.Id, hsup, hg, ResourceData.SetId]

end Okta

/-! ## Theorems: tolerated answers of the membership endpoints -/

namespace Okta

theorem addUserToGroups_tolerant {ρ : Type} (api : MemberAPI ρ) (groupId : String)
    (hadd : ∀ r g u, (api.AddMember r g u).2 = none ∨
      (api.AddMember r g u).2 = some MemberError.alreadyMember)
    (users : List String) (w : MemberWorld ρ) :
    (addUserToGroups api groupId users w).2 = none ∧
    (addUserToGroups api groupId users w).1.log =
      w.log ++ users.map (MemberCall.AddMember groupId) := by
  induction users generalizing w with
  | nil => simp [addUserToGroups]
  | cons u us ih =>
    rcases hadd w.remote groupId u with h | h <;>
      simp [addUserToGroups, h, ih]

theorem removeUserFromGroups_tolerant {ρ : Type} (api : MemberAPI ρ) (groupId : String)
    (hrem : ∀ r g u, (api.RemoveMember r g u).2 = none ∨
      (api.RemoveMember r g u).2 = some MemberError.notMember)
    (users : List String) (w : MemberWorld ρ) :
    (removeUserFromGroups api groupId users w).2 = none ∧
    (removeUserFromGroups api groupId users w).1.log =
      w.log ++ users.map (MemberCall.RemoveMember groupId) := by
  induction users generalizing w with
  | nil => simp [removeUserFromGroups]
  | cons u us ih =>
    rcases hrem w.remote groupId u with h | h <;>
      simp [removeUserFromGroups, h, ih]

/-- C8: when the add-member endpoint only ever answers success or "already a member" and
the remove-member endpoint only ever answers success or "not a member",
`updateGroupUsers` returns no error and goes on through both slices: it sends one add
request per member to add, then one remove request per member to remove. -/
theorem updateGroupUsers_tolerates_duplicates {ρ : Type} (deps : Deps (MemberWorld ρ))
    (api : MemberAPI ρ) (w : World (MemberWorld ρ)) (d : ResourceData)
    (hchg : d.HasChangeUsers = true) (hskip : d.skip_users = false)
    (hadd : ∀ r g u, (api.AddMember r g u).2 = none ∨
      (api.AddMember r g u).2 = some MemberError.alreadyMember)
    (hrem : ∀ r g u, (api.RemoveMember r g u).2 = none ∨
      (api.RemoveMember r g u).2 = some MemberError.notMember) :
    (updateGroupUsers (deps.withMemberAPI api) w d).2 = none ∧
    (updateGroupUsers (deps.withMemberAPI api) w d).1.remote.log =
      w.remote.log ++ (usersToAdd d.usersOld d.users).map (MemberCall.AddMember d.id) ++
        (usersToRemove d.usersOld d.users).map (MemberCall.RemoveMember d.id) := by
  rw [updateGroupUsers_of_changed _ w d hchg hskip]
  have ha := addUserToGroups_tolerant api d.id hadd (usersToAdd d.usersOld d.users) w.remote
  have hr := fun w1 =>
    removeUserFromGroups_tolerant api d.id hrem (usersToRemove d.usersOld d.users) w1
  simp [Deps.withMemberAPI, ha.1, ha.2, hr]

end Okta

/-! ## Theorems: the `UserSchemaAttribute` codec -/

namespace Sdk

theorem decodeInt64Ptr_encode (key : String) (p r : Option Int)
    (h : ∀ v, p = some v → -(2 ^ 63 : Int) ≤ v ∧ v < 2 ^ 63) (hr : p = none → r = none) :
    decodeInt64Ptr key (encodeInt64Ptr p) r = .ok p := by
  cases p with
  | none => simp [encodeInt64Ptr, decodeInt64Ptr, hr]
  | some v =>
    have hv := h v rfl
    simp only [encodeInt64Ptr, decodeInt64Ptr, Option.map_some']
    rw [if_pos hv]

theorem decodeInt64Ptr_range (key : String) (j : Option JsonValue) (p : Option Int)
    (h : decodeInt64Ptr key j none = .ok p) :
    ∀ v, p = some v → -(2 ^ 63 : Int) ≤ v ∧ v < 2 ^ 63 := by
  intro v hv
  subst hv
  unfold decodeInt64Ptr at h
  split at h
  · simp at h
  · simp at h
  · split at h
    · rename_i n hn
      simp at h
      subst h
      exact hn
    · simp at h
  · simp at h

/-- What `UnmarshalJSON` into the zero value returns when it succeeds. -/
theorem UnmarshalJSON_zero_ok (j : JsonObject) (a : UserSchemaAttribute)
    (h : UserSchemaAttribute.zero.UnmarshalJSON j = .ok a) :
    decodeInt64Ptr "maxLength" j.maxLength none = .ok a.MaxLengthPtr ∧
    decodeInt64Ptr "minLength" j.minLength none = .ok a.MinLengthPtr ∧
    a.MaxLength = a.MaxLengthPtr.getD 0 ∧ a.MinLength = a.MinLengthPtr.getD 0 := by
  unfold UserSchemaAttribute.UnmarshalJSON jsonUnmarshal at h
  simp only [UserSchemaAttribute.zero] at h
  cases hp : decodeInt64Ptr "maxLength" j.maxLength none with
  | error e => simp [hp] at h
  | ok p =>
    cases hq : decodeInt64Ptr "minLength" j.minLength none with
    | error e => simp [hp, hq] at h
    | ok q =>
      simp only [hp, hq] at h
      injection h with h
      subst h
      cases p <;> cases q <;> simp

end Sdk

namespace Sdk

theorem MarshalJSON_of_decoded (a : UserSchemaAttribute)
    (hM : a.MaxLength = a.MaxLengthPtr.getD 0) (hm : a.MinLength = a.MinLengthPtr.getD 0) :
    a.MarshalJSON =
      (a, .ok ⟨encodeInt64Ptr a.MaxLengthPtr, encodeInt64Ptr a.MinLengthPtr⟩) := by
  obtain ⟨M, P, m, Q⟩ := a
  simp only at hM hm
  subst hM hm
  cases P <;> cases Q <;>
    simp [UserSchemaAttribute.MarshalJSON, jsonMarshal, Int64Ptr, encodeInt64Ptr]

theorem UnmarshalJSON_zero_encode (a : UserSchemaAttribute)
    (hP : ∀ v, a.MaxLengthPtr = some v → -(2 ^ 63 : Int) ≤ v ∧ v < 2 ^ 63)
    (hQ : ∀ v, a.MinLengthPtr = some v → -(2 ^ 63 : Int) ≤ v ∧ v < 2 ^ 63)
    (hM : a.MaxLength = a.MaxLengthPtr.getD 0) (hm : a.MinLength = a.MinLengthPtr.getD 0) :
    UserSchemaAttribute.zero.UnmarshalJSON
      ⟨encodeInt64Ptr a.MaxLengthPtr, encodeInt64Ptr a.MinLengthPtr⟩ = .ok a := by
  obtain ⟨M, P, m, Q⟩ := a
  simp only at hP hQ hM hm
  subst hM hm
  simp only [UserSchemaAttribute.UnmarshalJSON, jsonUnmarshal, UserSchemaAttribute.zero,
    decodeInt64Ptr_encode "maxLength" P none hP (fun _ => rfl),
    decodeInt64Ptr_encode "minLength" Q none hQ (fun _ => rfl)]
  cases P <;> cases Q <;> simp

/-- C9: an attribute `a` decoded by `UnmarshalJSON` into a zero-value struct is left
unchanged by `MarshalJSON`, which succeeds, and decoding the emitted document into a
fresh zero-value struct succeeds and gives `a` back: the same `MaxLength`, `MinLength`,
`MaxLengthPtr` and `MinLengthPtr`. A key holding `0` decodes to value 0 with a non-nil
pointer to 0 and is emitted again as `0`; an absent key decodes to value 0 with a nil
pointer and is omitted again. -/
theorem UserSchemaAttribute_codec_roundtrip (j : JsonObject) (a : UserSchemaAttribute)
    (h : UserSchemaAttribute.zero.UnmarshalJSON j = .ok a) :
    (∃ j2, a.MarshalJSON = (a, .ok j2) ∧
      UserSchemaAttribute.zero.UnmarshalJSON j2 = .ok a ∧
      (j.maxLength = some (.int 0) → j2.maxLength = some (.int 0)) ∧
      (j.maxLength = none → j2.maxLength = none) ∧
      (j.minLength = some (.int 0) → j2.minLength = some (.int 0)) ∧
      (j.minLength = none → j2.minLength = none)) ∧
    (j.maxLength = some (.int 0) → a.MaxLength = 0 ∧ a.MaxLengthPtr = some 0) ∧
    (j.maxLength = none → a.MaxLength = 0 ∧ a.MaxLengthPtr = none) ∧
    (j.minLength = some (.int 0) → a.MinLength = 0 ∧ a.MinLengthPtr = some 0) ∧
    (j.minLength = none → a.MinLength = 0 ∧ a.MinLengthPtr = none) := by
  obtain ⟨hp, hq, hM, hm⟩ := UnmarshalJSON_zero_ok j a h
  have hP := decodeInt64Ptr_range _ _ _ hp
  have hQ := decodeInt64Ptr_range _ _ _ hq
  have max0 : j.maxLength = some (.int 0) → a.MaxLengthPtr = some 0 := by
    intro h0
    rw [h0] at hp
    simpa [decodeInt64Ptr] using hp.symm
  have maxN : j.maxLength = none → a.MaxLengthPtr = none := by
    intro h0
    rw [h0] at hp
    simpa [decodeInt64Ptr] using hp.symm
  have min0 : j.minLength = some (.int 0) → a.MinLengthPtr = some 0 := by
    intro h0
    rw [h0] at hq
    simpa [decodeInt64Ptr] using hq.symm
  have minN : j.minLength = none → a.MinLengthPtr = none := by
    intro h0
    rw [h0] at hq
    simpa [decodeInt64Ptr] using hq.symm
  refine ⟨⟨⟨encodeInt64Ptr a.MaxLengthPtr, encodeInt64Ptr a.MinLengthPtr⟩,
    MarshalJSON_of_decoded a hM hm, UnmarshalJSON_zero_encode a hP hQ hM hm,
    ?_, ?_, ?_, ?_⟩, ?_, ?_, ?_, ?_⟩
  · intro h0; simp [encodeInt64Ptr, max0 h0]
  · intro h0; simp [encodeInt64Ptr, maxN h0]
  · intro h0; simp [encodeInt64Ptr, min0 h0]
  · intro h0; simp [encodeInt64Ptr, minN h0]
  · intro h0; simp [hM, max0 h0]
  · intro h0; simp [hM, maxN h0]
  · intro h0; simp [hm, min0 h0]
  · intro h0; simp [hm, minN h0]

/-- C10: `MarshalJSON` emits `MaxLength` under `maxLength` whenever `MaxLength` is not 0,
whatever `MaxLengthPtr` held, and leaves the receiver's `MaxLengthPtr` pointing to
`MaxLength`; when `MaxLength` is 0 it emits the value behind `MaxLengthPtr`, or omits the
key for a nil pointer, and leaves the pointer alone. So an attribute with `MaxLength`
0 whose pointer holds `v` still emits `v`. The same holds for `MinLength` and
`MinLengthPtr`, and neither pair affects the other key. -/
theorem MarshalJSON_precedence (a : UserSchemaAttribute) :
    ∃ j, a.MarshalJSON.2 = .ok j ∧
      (a.MaxLength ≠ 0 → j.maxLength = some (.int a.MaxLength) ∧
        a.MarshalJSON.1.MaxLengthPtr = some a.MaxLength) ∧
      (a.MaxLength = 0 → j.maxLength = a.MaxLengthPtr.map JsonValue.int ∧
        a.MarshalJSON.1.MaxLengthPtr = a.MaxLengthPtr) ∧
      (∀ v, a.MaxLength = 0 → a.MaxLengthPtr = some v → j.maxLength = some (.int v)) ∧
      (a.MinLength ≠ 0 → j.minLength = some (.int a.MinLength) ∧
        a.MarshalJSON.1.MinLengthPtr = some a.MinLength) ∧
      (a.MinLength = 0 → j.minLength = a.MinLengthPtr.map JsonValue.int ∧
        a.MarshalJSON.1.MinLengthPtr = a.MinLengthPtr) ∧
      (∀ v, a.MinLength = 0 → a.MinLengthPtr = some v → j.minLength = some (.int v)) ∧
      a.MarshalJSON.1.MaxLength = a.MaxLength ∧ a.MarshalJSON.1.MinLength = a.MinLength := by
  obtain ⟨M, P, m, Q⟩ := a
  by_cases hM : M = 0 <;> by_cases hm : m = 0 <;>
    simp [UserSchemaAttribute.MarshalJSON, jsonMarshal, Int64Ptr, encodeInt64Ptr, hM, hm]

end Sdk

/-! ## Instances at sample inputs -/

namespace Okta

theorem updateGroupUsers_passes_differences_witness :
    sampleChange.HasChangeUsers = true ∧ sampleChange.skip_users = false ∧
    (∀ a ∈ sampleChange.users.items, ∀ b ∈ sampleChange.usersOld.items,
      hashKey a = hashKey b → a = b) ∧
    ∃ toAdd toRemove : List String,
      (∀ x, x ∈ toAdd ↔ x ∈ sampleChange.users.items ∧ x ∉ sampleChange.usersOld.items) ∧
      toAdd.Nodup ∧
      (∀ x, x ∈ toRemove ↔ x ∈ sampleChange.usersOld.items ∧ x ∉ sampleChange.users.items) ∧
      toRemove.Nodup ∧
      (updateGroupUsers (sampleDeps Unit) freshWorld sampleChange).1.calls =
        freshWorld.calls ++ Call.addUserToGroups sampleChange.id toAdd ::
          (if ((sampleDeps Unit).addUserToGroups freshWorld.remote sampleChange.id toAdd).2
              = none
            then [Call.removeUserFromGroups sampleChange.id toRemove] else []) :=
  ⟨by decide, by decide, by decide,
    updateGroupUsers_passes_differences (sampleDeps Unit) freshWorld sampleChange
      (by decide) (by decide) (by decide)⟩

theorem usersToAdd_usersToRemove_converge_witness :
    (∀ a ∈ sampleChange.users.items, ∀ b ∈ sampleChange.usersOld.items,
      hashKey a = hashKey b → a = b) ∧
    (sampleChange.usersOld.items.toFinset ∪
        (usersToAdd sampleChange.usersOld sampleChange.users).toFinset) \
      (usersToRemove sampleChange.usersOld sampleChange.users).toFinset
      = sampleChange.users.items.toFinset :=
  ⟨by decide,
    (usersToAdd_usersToRemove_converge sampleChange.users sampleChange.usersOld).2.2
      (by decide)⟩

theorem updateGroupUsers_add_then_remove_witness :
    sampleChange.HasChangeUsers = true ∧ sampleChange.skip_users = false ∧
    (updateGroupUsers ((sampleDeps _).withMemberAPI refuseU2) freshMemberWorld
        sampleChange).2 = some "failed to add user u2 to group g1: rejected" ∧
    (updateGroupUsers ((sampleDeps _).withMemberAPI refuseU2) freshMemberWorld
        sampleChange).1.calls = [Call.addUserToGroups "g1" ["u1", "u2"]] :=
  ⟨by decide, by decide,
    ((updateGroupUsers_add_then_remove ((sampleDeps _).withMemberAPI refuseU2)
      freshMemberWorld sampleChange (by decide) (by decide)).1
        "failed to add user u2 to group g1: rejected" (by decide)).1,
    ((updateGroupUsers_add_then_remove ((sampleDeps _).withMemberAPI refuseU2)
      freshMemberWorld sampleChange (by decide) (by decide)).1
        "failed to add user u2 to group g1: rejected" (by decide)).2.1⟩

theorem skip_users_issues_no_call_witness :
    sampleSkipped.skip_users = true ∧
    syncGroupUsers (sampleDeps Unit) freshWorld sampleSkipped =
      (freshWorld, sampleSkipped, none) ∧
    updateGroupUsers (sampleDeps Unit) freshWorld sampleSkipped = (freshWorld, none) :=
  ⟨by decide, skip_users_issues_no_call (sampleDeps Unit) freshWorld sampleSkipped (by decide)⟩

theorem importer_accepts_documented_shapes_witness :
    '/' ∉ "00g123".data ∧
    StateContext freshWorld { importData "x" with id := "00g123" } =
      (freshWorld, { importData "x" with id := "00g123" },
        .ok [{ importData "x" with id := "00g123" }]) ∧
    StateContext freshWorld { importData "x" with id := "00g123" ++ "/skip_users" } =
      (freshWorld, { importData "x" with id := "00g123", skip_users := true },
        .ok [{ importData "x" with id := "00g123", skip_users := true }]) :=
  ⟨by decide,
    importer_accepts_documented_shapes freshWorld (importData "x") "00g123" (by decide)⟩

theorem importer_rejects_other_shapes_witness :
    (2 < (strings.Split (importData "00g123/a/b").id '/').length ∧
      ∃ e, (StateContext freshWorld (importData "00g123/a/b")).2.2 = .error e ∧
        (StateContext freshWorld (importData "00g123/a/b")).1 = freshWorld) ∧
    (strings.Split (importData "00g123/wrong").id '/' = ["00g123", "wrong"] ∧
      ∃ e, (StateContext freshWorld (importData "00g123/wrong")).2.2 = .error e ∧
        (StateContext freshWorld (importData "00g123/wrong")).1 = freshWorld) ∧
    (strings.Split (importData "00g123/").id '/' = ["00g123", ""] ∧
      ∃ e, (StateContext freshWorld (importData "00g123/")).2.2 = .error e ∧
        (StateContext freshWorld (importData "00g123/")).1 = freshWorld) :=
  ⟨⟨by decide, importer_rejects_other_shapes freshWorld (importData "00g123/a/b")
      (Or.inl (by decide))⟩,
    ⟨by decide, importer_rejects_other_shapes freshWorld (importData "00g123/wrong")
      (Or.inr ⟨"00g123", "wrong", by decide, by decide⟩)⟩,
    ⟨by decide, importer_rejects_other_shapes freshWorld (importData "00g123/")
      (Or.inr ⟨"00g123", "", by decide, by decide⟩)⟩⟩

theorem resourceGroupRead_not_found_witness :
    (sampleDeps Unit).suppressErrorOn404
      ((sampleDeps Unit).GetGroup freshWorld.remote sampleChange.id).2.2.1
      ((sampleDeps Unit).GetGroup freshWorld.remote sampleChange.id).2.2.2 = none ∧
    ((sampleDeps Unit).GetGroup freshWorld.remote sampleChange.id).2.1 = none ∧
    resourceGroupRead (sampleDeps Unit) freshWorld sampleChange =
      (⟨((sampleDeps Unit).GetGroup freshWorld.remote sampleChange.id).1,
          freshWorld.calls ++ [Call.GetGroup sampleChange.id]⟩,
        { sampleChange with id := "" }, []) :=
  ⟨by decide, rfl,
    resourceGroupRead_not_found (sampleDeps Unit) freshWorld sampleChange (by decide) rfl⟩

theorem updateGroupUsers_tolerates_duplicates_witness :
    sampleChange.HasChangeUsers = true ∧ sampleChange.skip_users = false ∧
    (updateGroupUsers ((sampleDeps _).withMemberAPI alwaysDuplicate) freshMemberWorld
        sampleChange).2 = none ∧
    (updateGroupUsers ((sampleDeps _).withMemberAPI alwaysDuplicate) freshMemberWorld
        sampleChange).1.remote.log =
      freshMemberWorld.remote.log ++
        (usersToAdd sampleChange.usersOld sampleChange.users).map
          (MemberCall.AddMember sampleChange.id) ++
        (usersToRemove sampleChange.usersOld sampleChange.users).map
          (MemberCall.RemoveMember sampleChange.id) :=
  ⟨by decide, by decide,
    updateGroupUsers_tolerates_duplicates (sampleDeps _) alwaysDuplicate freshMemberWorld
      sampleChange (by decide) (by decide) (fun _ _ _ => Or.inr rfl)
      (fun _ _ _ => Or.inr rfl)⟩

end Okta

namespace Sdk

theorem UserSchemaAttribute_codec_roundtrip_witness :
    UserSchemaAttribute.zero.UnmarshalJSON ⟨some (.int 0), none⟩ = .ok ⟨0, some 0, 0, none⟩ ∧
    (⟨0, some 0, 0, none⟩ : UserSchemaAttribute).MarshalJSON =
      (⟨0, some 0, 0, none⟩, .ok ⟨some (.int 0), none⟩) ∧
    ∃ j2, (⟨0, some 0, 0, none⟩ : UserSchemaAttribute).MarshalJSON =
        (⟨0, some 0, 0, none⟩, .ok j2) ∧
      UserSchemaAttribute.zero.UnmarshalJSON j2 = .ok ⟨0, some 0, 0, none⟩ ∧
      ((⟨some (.int 0), none⟩ : JsonObject).maxLength = some (.int 0) →
        j2.maxLength = some (.int 0)) ∧
      ((⟨some (.int 0), none⟩ : JsonObject).maxLength = none → j2.maxLength = none) ∧
      ((⟨some (.int 0), none⟩ : JsonObject).minLength = some (.int 0) →
        j2.minLength = some (.int 0)) ∧
      ((⟨some (.int 0), none⟩ : JsonObject).minLength = none → j2.minLength = none) :=
  ⟨rfl, rfl,
    (UserSchemaAttribute_codec_roundtrip ⟨some (.int 0), none⟩ ⟨0, some 0, 0, none⟩ rfl).1⟩

theorem MarshalJSON_precedence_witness :
    (⟨0, some 5, 7, some 3⟩ : UserSchemaAttribute).MarshalJSON =
      (⟨0, some 5, 7, some 7⟩, .ok ⟨some (.int 5), some (.int 7)⟩) ∧
    ∃ j, (⟨0, some 5, 7, some 3⟩ : UserSchemaAttribute).MarshalJSON.2 = .ok j ∧
      j.maxLength = some (.int 5) ∧ j.minLength = some (.int 7) :=
  ⟨rfl,
    (MarshalJSON_precedence ⟨0, some 5, 7, some 3⟩).imp fun _ hj =>
      ⟨hj.1, hj.2.2.2.1 5 rfl rfl, (hj.2.2.2.2.1 (by decide)).1⟩⟩

end Sdk
